import Mathlib

/-!
Verification of the adaptive language-acquisition speech session coordinator
(backend/main.py, backend/ws_fixed.py, backend/ws_multilang_adaptive.py).

The Python sources are shallowly embedded below.  Pure helpers become Lean
functions; the stateful WebSocket session (closure variables of `ws_asr`)
becomes an explicit `SessionState` record, with the recognizer / translator /
embedding collaborators abstracted as an `Oracle` of response functions and
every `time.perf_counter()` read supplied as an explicit rational input.
Outbound `ws.send_json` calls and engine side effects are recorded in an
ordered `Act` trace.

Numeric conventions:
  * PCM byte strings are `List Nat` (byte values); 16-bit little-endian
    samples are decoded exactly as `struct.unpack("<h"*n, ...)` does.
  * Python floats are idealised as `ℚ` (for clock values, thresholds) and, for
    the one genuinely irrational computation (`cosine`, which takes square
    roots), as `ℝ` together with an exact rational decision procedure
    `cosine_gt` for the comparison the control flow actually performs
    (`gt` against a nonnegative threshold); lemma `cosine_gt_iff` proves the
    two agree.
  * `rms_energy` in the source returns `sqrt(mean of squares)`; it is only
    ever compared against the nonnegative threshold 300, so the embedding
    `rms_energy_sq` returns the mean square and comparisons use the squared
    threshold (sqrt is strictly monotone on nonnegatives, so this is exact).
-/

/-- Target translation language (`TARGET_LANG = "en"`, main.py line 47). -/
def TARGET_LANG : String := "en"

/-- Whisper-tag to Azure-locale map (`LANG_MAP`, main.py lines 52-66),
as an ordered association list. -/
def LANG_MAP : List (String × String) :=
  [("english", "en-US"), ("en", "en-US"),
   ("chinese", "zh-TW"), ("mandarin", "zh-CN"), ("zh", "zh-CN"),
   ("japanese", "ja-JP"), ("ja", "ja-JP"),
   ("korean", "ko-KR"), ("ko", "ko-KR"),
   ("thai", "th-TH"), ("th", "th-TH"),
   ("vietnamese", "vi-VN"), ("vi", "vi-VN"),
   ("indonesian", "id-ID"), ("id", "id-ID"),
   ("malay", "ms-MY"), ("ms", "ms-MY"),
   ("hindi", "hi-IN"), ("hi", "hi-IN"),
   ("french", "fr-FR"), ("fr", "fr-FR"),
   ("german", "de-DE"), ("de", "de-DE"),
   ("spanish", "es-ES"), ("es", "es-ES"),
   ("portuguese", "pt-PT"), ("pt", "pt-PT")]

/-- Python `lang in LANG_MAP` (membership among the keys). -/
def inLangMap (k : String) : Bool := (LANG_MAP.lookup k).isSome

/-- Python `LANG_MAP.get(lang, default)` (main.py line 263). -/
def langMapGet (k dflt : String) : String := (LANG_MAP.lookup k).getD dflt

/-- Silence threshold `SILENCE_RMS_THRESHOLD = 300` (main.py line 71). -/
def SILENCE_RMS_THRESHOLD : ℚ := 300

/-- Minimum detection window `MIN_DETECT_SEC = 0.8` (main.py line 72). -/
def MIN_DETECT_SEC : ℚ := 4/5

/-- Maximum detection window `MAX_DETECT_SEC = 8.0` (main.py line 73). -/
def MAX_DETECT_SEC : ℚ := 8

/-- Decode one little-endian signed 16-bit sample from two bytes, exactly as
`struct.unpack("<h", ...)` does. -/
def toInt16 (lo hi : Nat) : Int :=
  if lo + 256 * hi < 32768 then (lo + 256 * hi : Int) else (lo + 256 * hi : Int) - 65536

/-- Decode a byte string into its complete 16-bit samples (a trailing odd byte
is never consumed; the caller's length check below decides whether the Python
`struct.unpack` call would have raised instead). -/
def unpack16 : List Nat → List Int
  | lo :: hi :: rest => toInt16 lo hi :: unpack16 rest
  | _ => []

/-- Embedding of `rms_energy` (main.py lines 91-95).  The source computes
`struct.unpack("<" + "h" * (len(pcm) // 2), pcm)`: the format consumes
`2 * (len // 2)` bytes, so `struct.unpack` raises `struct.error` whenever the
chunk's byte length is odd — modelled as `Except.error`.  On success the
source returns `sqrt(sum(s*s) / n)`; we return the radicand (mean square),
see the header note. -/
def rms_energy_sq (pcm : List Nat) : Except String ℚ :=
  if pcm = [] then .ok 0
  else if pcm.length % 2 = 0 then
    let samples := unpack16 pcm
    .ok (((samples.map (fun v => ((v : ℚ) * v))).sum) / (samples.length : ℚ))
  else .error "struct.error: unpack requires a buffer of an even number of bytes"

/-- The main-loop silence test `rms_energy(chunk) < SILENCE_RMS_THRESHOLD`
(main.py line 503), `false` when the unpack would raise. -/
def below_threshold (chunk : List Nat) : Bool :=
  match rms_energy_sq chunk with
  | .ok ms => decide (ms < SILENCE_RMS_THRESHOLD ^ 2)
  | .error _ => false

/-- Python truthiness of `s.strip()`: true iff `s` contains a character
that is not whitespace.  (Used wherever the source tests
`text.strip()`; `String.trim` itself is avoided because its auxiliary
functions do not reduce in the kernel.) -/
def pyStripTruthy (s : String) : Bool := s.data.any (fun ch => !ch.isWhitespace)

/-- Dot product of two embedding vectors, `sum(x * y for x, y in zip(a, b))`
(main.py line 218). -/
def dotQ (a b : List ℚ) : ℚ := (List.zipWith (· * ·) a b).sum

/-- Sum of squares of an embedding vector (the radicand of `na` / `nb`,
main.py lines 219-220). -/
def sqQ (a : List ℚ) : ℚ := (a.map (fun x => x * x)).sum

/-- The `1e-8` guard added to the cosine denominator (main.py line 221). -/
def COSINE_EPS : ℚ := 1 / 100000000

/-- Embedding of `cosine` (main.py lines 217-221):
`dot / (na * nb + 1e-8)` with `na = sqrt(sqQ a)`, `nb = sqrt(sqQ b)`.
The square roots are irrational in general, so this specification-level
definition lives in `ℝ`; the executable decision procedure for the one
comparison the program makes is `cosine_gt` below. -/
noncomputable def cosine (a b : List ℚ) : ℝ :=
  (dotQ a b : ℝ) / (Real.sqrt (sqQ a) * Real.sqrt (sqQ b) + (COSINE_EPS : ℚ))

/-- Exact rational decision of `cosine a b > t` for a nonnegative threshold
`t`: clearing the positive denominator and squaring away the square roots
gives `0 < d ∧ t² · (sqQ a · sqQ b) < d²` for `d = dot − t·ε`.
`cosine_gt_iff` proves this equivalent to the real comparison. -/
def cosine_gt (a b : List ℚ) (t : ℚ) : Bool :=
  let d := dotQ a b - t * COSINE_EPS
  decide (0 < d ∧ t ^ 2 * (sqQ a * sqQ b) < d ^ 2)

theorem sqQ_nonneg (a : List ℚ) : 0 ≤ sqQ a := by
  unfold sqQ
  apply List.sum_nonneg
  intro x hx
  simp only [List.mem_map] at hx
  obtain ⟨y, -, rfl⟩ := hx
  exact mul_self_nonneg y

theorem cosine_gt_iff (a b : List ℚ) (t : ℚ) (ht : 0 ≤ t) :
    cosine_gt a b t = true ↔ (t : ℝ) < cosine a b := by
  have hsa : (0 : ℝ) ≤ ((sqQ a : ℚ) : ℝ) := by exact_mod_cast sqQ_nonneg a
  have hsb : (0 : ℝ) ≤ ((sqQ b : ℚ) : ℝ) := by exact_mod_cast sqQ_nonneg b
  have heps : (0 : ℝ) < ((COSINE_EPS : ℚ) : ℝ) := by norm_num [COSINE_EPS]
  have hden : (0 : ℝ) <
      Real.sqrt (sqQ a) * Real.sqrt (sqQ b) + ((COSINE_EPS : ℚ) : ℝ) :=
    add_pos_of_nonneg_of_pos
      (mul_nonneg (Real.sqrt_nonneg _) (Real.sqrt_nonneg _)) heps
  have ht' : (0 : ℝ) ≤ (t : ℝ) := by exact_mod_cast ht
  unfold cosine cosine_gt
  rw [lt_div_iff₀ hden, decide_eq_true_eq]
  have hsqrtmul : Real.sqrt (sqQ a) * Real.sqrt (sqQ b)
      = Real.sqrt (((sqQ a * sqQ b : ℚ) : ℝ)) := by
    rw [Rat.cast_mul, Real.sqrt_mul hsa]
  have hkey : (t : ℝ) * (Real.sqrt (sqQ a) * Real.sqrt (sqQ b) + ((COSINE_EPS : ℚ) : ℝ))
      < ((dotQ a b : ℚ) : ℝ)
      ↔ (t : ℝ) * Real.sqrt (((sqQ a * sqQ b : ℚ) : ℝ))
        < ((dotQ a b - t * COSINE_EPS : ℚ) : ℝ) := by
    rw [hsqrtmul]
    push_cast
    constructor <;> intro h <;> nlinarith [h]
  rw [hkey]
  set P : ℝ := ((sqQ a * sqQ b : ℚ) : ℝ) with hP
  set d : ℝ := ((dotQ a b - t * COSINE_EPS : ℚ) : ℝ) with hd
  have hPnn : (0 : ℝ) ≤ P := by
    rw [hP]
    exact_mod_cast mul_nonneg (sqQ_nonneg a) (sqQ_nonneg b)
  have hsplit : (t : ℝ) * Real.sqrt P < d ↔ 0 < d ∧ (t : ℝ) ^ 2 * P < d ^ 2 := by
    constructor
    · intro h
      have hnn : (0 : ℝ) ≤ (t : ℝ) * Real.sqrt P :=
        mul_nonneg ht' (Real.sqrt_nonneg _)
      have hd0 : 0 < d := lt_of_le_of_lt hnn h
      refine ⟨hd0, ?_⟩
      have hsq : ((t : ℝ) * Real.sqrt P) ^ 2 < d ^ 2 := by
        apply sq_lt_sq' _ h
        linarith
      calc (t : ℝ) ^ 2 * P = ((t : ℝ) * Real.sqrt P) ^ 2 := by
            rw [mul_pow, Real.sq_sqrt hPnn]
        _ < d ^ 2 := hsq
    · rintro ⟨hd0, hsq⟩
      have hts : (t : ℝ) * Real.sqrt P = Real.sqrt ((t : ℝ) ^ 2 * P) := by
        rw [Real.sqrt_mul (sq_nonneg _), Real.sqrt_sq ht']
      rw [hts]
      exact (Real.sqrt_lt' hd0).mpr hsq
  rw [hsplit, hd, hP]
  norm_cast

/-!
Data model of one `ws_asr` session (main.py lines 227-253).  The closure
variables of `ws_asr` become fields of `SessionState`; `recognizer` and
`push_stream` (always created and destroyed together) are modelled by the
single flag `push_stream_open`.
-/

/-- One entry of `utterance_history` (main.py lines 251-253, 313-318):
the dict `{"pcm": ..., "azure_text": ..., "azure_translation": ...}`. -/
structure HistoryEntry where
  pcm : List Nat
  azure_text : String
  azure_translation : Option String
deriving DecidableEq, Repr

/-- Session state: the mutable closure variables of `ws_asr`. -/
structure SessionState where
  detect_buffer : List Nat
  current_utt_audio : List Nat
  provisional_lang : Option String
  lang_locked : Bool
  push_stream_open : Bool
  first_speech_time : Option ℚ
  last_translation_text : Option String
  last_translation_time : Option ℚ
  last_translation_embedding : Option (List ℚ)
  utterance_history : List HistoryEntry
deriving DecidableEq, Repr

/-- Fresh session state at `ws.accept()` (main.py lines 229-253). -/
def initState : SessionState :=
  { detect_buffer := []
    current_utt_audio := []
    provisional_lang := none
    lang_locked := false
    push_stream_open := false
    first_speech_time := none
    last_translation_text := none
    last_translation_time := none
    last_translation_embedding := none
    utterance_history := [] }

/-- Outbound JSON events (`ws.send_json` payloads; spec section 6 event
table).  Optional boolean JSON fields (`corrected`, `replayed`) are modelled
as `Bool` with `false` for "absent".  The `partial` event of the source is
named `interim` here. -/
inductive Event where
  | lang (lang : String)
  | lang_locked (lang : String)
  | interim (text : String)
  | mid_translate (translated : String)
  | final (text : String) (corrected : Bool) (replayed : Bool)
  | final_translate (translated : String) (provisional : Bool)
      (replace_last : Bool) (replayed : Bool)
  | invalidate_all_asr
  | invalidate_all_translation
deriving DecidableEq, Repr

/-- One step of the session's observable behaviour: an outbound event, a
collaborator call that the claims track (`whisper_detect`), an engine
lifecycle action, a `push_stream.write`, or the scheduling of a
partial-hypothesis translation request. -/
inductive Act where
  | event (e : Event)
  | whisper_detect_call (pcm : List Nat)
  | azure_start (azureLang : String)
  | azure_stop
  | push_write (pcm : List Nat)
  | mid_translate_request (text : String)
deriving DecidableEq, Repr

/-- Project the client-visible events out of an action trace. -/
def eventsOf (l : List Act) : List Event :=
  l.filterMap fun a => match a with
    | .event e => some e
    | _ => none

/-- Collaborator behaviour for one session, abstracting the network services
(main.py `whisper_detect` lines 101-121, `whisper_transcribe` lines 127-145,
`whisper_translate` lines 151-172, `azure_translate` lines 178-193, `embed`
lines 199-214).  Each field maps the request payload to the result the
Python coroutine returns on a successful call; `embed` returning `none`
covers both the empty-text early return, a non-200 response and the caught
exception (main.py lines 332-335).  HTTP-level degradation of the
individual helpers is modelled separately (see `whisper_detect_http` etc.). -/
structure Oracle where
  whisper_detect : List Nat → String
  whisper_transcribe : List Nat → String
  whisper_translate : List Nat → String
  azure_translate : String → String → String
  embed : String → Option (List ℚ)

/-!
Embedding of `on_final` (main.py lines 297-460).  The callback is a pure
function of the session state, the utterance text, the oracle and the
sequence of `time.perf_counter()` readings it performs: `clock 0` is the
reading at line 329 and `clock (1+i)` the reading taken while replaying
ledger entry `i` (line 432).  The body is factored into named definitions,
each tagged with the source lines it embeds; `on_final` itself is the
branch structure of lines 385-460.
-/

/-- The Azure translation of this utterance (main.py line 326). -/
def transOf (o : Oracle) (t : String) : String := o.azure_translate t TARGET_LANG

/-- The ledger entry recorded for this utterance (main.py lines 310-318,
with `azure_translation` filled in at line 327). -/
def newEntryOf (o : Oracle) (s : SessionState) (t : String) : HistoryEntry :=
  { pcm := s.current_utt_audio, azure_text := t,
    azure_translation := some (transOf o t) }

/-- The per-utterance verification detection (main.py line 377):
`whisper_detect` applied to this utterance's raw PCM. -/
def detectedOf (o : Oracle) (s : SessionState) : String :=
  o.whisper_detect s.current_utt_audio

/-- `provisional_lang` after the back-fill of main.py lines 380-382
(adopt the detected tag when no provisional language existed yet). -/
def provisional1Of (o : Oracle) (s : SessionState) : Option String :=
  match s.provisional_lang with
  | none => if inLangMap (detectedOf o s) then some (detectedOf o s) else none
  | some p => some p

/-- The merge decision (main.py lines 329-346): an embedding for the new
translation was obtained, a previous embedding and timestamp exist, the
cosine similarity is above 0.75 and the gap to the previous translation is
under one second. -/
def mergeFlagOf (o : Oracle) (c : ℕ → ℚ) (s : SessionState) (t : String) : Bool :=
  match o.embed (transOf o t), s.last_translation_embedding, s.last_translation_time with
  | some e, some le, some lt => cosine_gt e le (3/4) && decide (c 0 - lt < 1)
  | _, _, _ => false

/-- The `final_translate` event emitted for this utterance
(main.py lines 348-368): the merged text replacing the previous line when
the merge fires and a previous text exists, a fresh entry otherwise. -/
def mainFtEvtOf (o : Oracle) (c : ℕ → ℚ) (s : SessionState) (t : String) : Event :=
  match mergeFlagOf o c s t, s.last_translation_text with
  | true, some p =>
      .final_translate (p ++ " " ++ transOf o t) (!s.lang_locked) true false
  | _, _ => .final_translate (transOf o t) (!s.lang_locked) false false

/-- `last_translation_text` after the emission (main.py lines 358, 368). -/
def lastTextAfter (o : Oracle) (c : ℕ → ℚ) (s : SessionState) (t : String) : Option String :=
  match mergeFlagOf o c s t, s.last_translation_text with
  | true, some p => some (p ++ " " ++ transOf o t)
  | _, _ => some (transOf o t)

/-- `last_translation_embedding` after the emission (main.py lines 370-371). -/
def lastEmbAfter (o : Oracle) (s : SessionState) (t : String) : Option (List ℚ) :=
  match o.embed (transOf o t) with
  | some e => some e
  | none => s.last_translation_embedding

/-- `last_translation_time` after the emission (main.py lines 370-372). -/
def lastTimeAfter (o : Oracle) (c : ℕ → ℚ) (s : SessionState) (t : String) : Option ℚ :=
  match o.embed (transOf o t) with
  | some _ => some (c 0)
  | none => s.last_translation_time

/-- The actions every `on_final` run begins with: the `final` transcript
event (line 323), the `final_translate` event (lines 348-368) and the
verification detection call (line 377). -/
def baseActsOf (o : Oracle) (c : ℕ → ℚ) (s : SessionState) (t : String) : List Act :=
  [.event (.final t false false), .event (mainFtEvtOf o c s t),
   .whisper_detect_call s.current_utt_audio]

/-- The rolling merge context (the triple of `last_translation_*`
variables) threaded through the rollback replay. -/
structure MergeCtx where
  text : Option String
  emb : Option (List ℚ)
  time : Option ℚ
deriving DecidableEq, Repr

/-- The corrective events for one ledger entry during the rollback replay
(main.py lines 405-430): a corrected `final` if the corrected transcript is
non-blank, then a replayed `final_translate` if the corrected translation is
non-blank; an entry with a blank result is skipped without stalling. -/
def replayEventsOf (o : Oracle) (e : HistoryEntry) : List Act :=
  (if pyStripTruthy (o.whisper_transcribe e.pcm) then
    [.event (.final (o.whisper_transcribe e.pcm) true true)]
  else []) ++
  (if pyStripTruthy (o.whisper_translate e.pcm) then
    [.event (.final_translate (o.whisper_translate e.pcm) false false true)]
  else [])

/-- Merge-context update for one replayed entry (main.py lines 431-441):
when the corrected translation is non-blank the context text becomes it and,
if an embedding was obtained, the embedding and timestamp are refreshed. -/
def replayCtxStep (o : Oracle) (now2 : ℚ) (ctx : MergeCtx) (e : HistoryEntry) : MergeCtx :=
  if pyStripTruthy (o.whisper_translate e.pcm) then
    match o.embed (o.whisper_translate e.pcm) with
    | some emb2 => { text := some (o.whisper_translate e.pcm), emb := some emb2, time := some now2 }
    | none => { ctx with text := some (o.whisper_translate e.pcm) }
  else ctx

/-- Sequential rollback replay over the ledger (main.py lines 405-441),
`k` being the index of the next `perf_counter` reading in `clock`. -/
def replay_run (o : Oracle) (c : ℕ → ℚ) : ℕ → MergeCtx → List HistoryEntry → MergeCtx × List Act
  | _, ctx, [] => (ctx, [])
  | k, ctx, e :: rest =>
    let ctx1 := replayCtxStep o (c k) ctx e
    let (ctx2, acts2) := replay_run o c (k + 1) ctx1 rest
    (ctx2, replayEventsOf o e ++ acts2)

/-- Merge context produced by replaying the full ledger (including the
current utterance) from the reset context of main.py lines 395-398. -/
def replayCtxOf (o : Oracle) (c : ℕ → ℚ) (s : SessionState) (t : String) : MergeCtx :=
  (replay_run o c 1 ⟨none, none, none⟩ (s.utterance_history ++ [newEntryOf o s t])).1

/-- Result of `on_final` on the paths that make no language decision: the
already-locked early return (main.py lines 385-387), case C (line 458) and
the no-provisional fallthrough.  All of them record the ledger entry, emit
the base events, keep `lang_locked` as it was and clear the utterance
buffer (line 460). -/
def plainResult (o : Oracle) (c : ℕ → ℚ) (s : SessionState) (t : String) :
    SessionState × List Act :=
  ({ s with current_utt_audio := []
            utterance_history := s.utterance_history ++ [newEntryOf o s t]
            provisional_lang := provisional1Of o s
            last_translation_text := lastTextAfter o c s t
            last_translation_embedding := lastEmbAfter o s t
            last_translation_time := lastTimeAfter o c s t },
   baseActsOf o c s t)

/-- Result of `on_final` in case B, the verified match (main.py
lines 452-456): lock the language and emit the lock event; the ledger is
NOT cleared on this path. -/
def lockResult (o : Oracle) (c : ℕ → ℚ) (s : SessionState) (t : String) :
    SessionState × List Act :=
  ({ s with current_utt_audio := []
            utterance_history := s.utterance_history ++ [newEntryOf o s t]
            provisional_lang := provisional1Of o s
            lang_locked := true
            last_translation_text := lastTextAfter o c s t
            last_translation_embedding := lastEmbAfter o s t
            last_translation_time := lastTimeAfter o c s t },
   baseActsOf o c s t ++ [.event (.lang_locked (detectedOf o s))])

/-- Result of `on_final` in case A, the mismatch (main.py lines 389-450):
reset the merge context, emit both invalidation events, replay the whole
ledger, clear it, adopt and lock the detected language, emit the lock event
and restart the recognition engine (`restart_azure`, lines 470-490, stops
the live engine and starts one for the new language). -/
def mismatchResult (o : Oracle) (c : ℕ → ℚ) (s : SessionState) (t : String) :
    SessionState × List Act :=
  ({ s with current_utt_audio := []
            utterance_history := []
            provisional_lang := some (detectedOf o s)
            lang_locked := true
            push_stream_open := true
            last_translation_text := (replayCtxOf o c s t).text
            last_translation_embedding := (replayCtxOf o c s t).emb
            last_translation_time := (replayCtxOf o c s t).time },
   baseActsOf o c s t
     ++ [.event .invalidate_all_asr, .event .invalidate_all_translation]
     ++ (replay_run o c 1 ⟨none, none, none⟩ (s.utterance_history ++ [newEntryOf o s t])).2
     ++ [.event (.lang_locked (detectedOf o s))]
     ++ (if s.push_stream_open then [Act.azure_stop] else [])
     ++ [.azure_start (langMapGet (detectedOf o s) "en-US")])

/-- Embedding of the `on_final` callback (main.py lines 297-460): branch
structure of lines 385 (already locked), 390 (case A mismatch), 453
(case B verified match) and 458 (case C, no decision). -/
def on_final (o : Oracle) (c : ℕ → ℚ) (s : SessionState) (t : String) :
    SessionState × List Act :=
  if s.lang_locked = true then plainResult o c s t
  else
    match provisional1Of o s with
    | some p =>
      if inLangMap (detectedOf o s) = true ∧ detectedOf o s ≠ p then
        mismatchResult o c s t
      else if detectedOf o s = p then lockResult o c s t
      else plainResult o c s t
    | none => plainResult o c s t

/-- Fold of `on_final` over a sequence of utterances (each with its own
clock), accumulating the trace. -/
def run_finals (o : Oracle) : SessionState → List (String × (ℕ → ℚ)) → SessionState × List Act
  | s, [] => (s, [])
  | s, (t, c) :: rest =>
    let r1 := on_final o c s t
    let r2 := run_finals o r1.1 rest
    (r2.1, r1.2 ++ r2.2)

/-!
Embedding of the `ws_asr` main audio loop (main.py lines 496-535), one
inbound binary frame at a time.  `now` supplies the `time.perf_counter()`
reading for this iteration.  A raised `struct.error` from `rms_energy`
propagates as `Except.error` (it would escape the `async for` body and tear
the session down).
-/

/-- Process one inbound chunk (main.py lines 496-535). -/
def process_chunk (o : Oracle) (s : SessionState) (chunk : List Nat) (now : ℚ) :
    Except String (SessionState × List Act) :=
  -- line 498: current_utt_audio.extend(chunk)
  let s0 := { s with current_utt_audio := s.current_utt_audio ++ chunk }
  match s0.provisional_lang with
  | none =>
    -- lines 501-531: pre-detection phase
    match rms_energy_sq chunk with
    | .error e => .error e
    | .ok ms =>
      if ms < SILENCE_RMS_THRESHOLD ^ 2 then
        -- line 503-504: too quiet, dropped from detection entirely
        .ok (s0, [])
      else
        -- lines 506-510
        let first := s0.first_speech_time.getD now
        let s1 := { s0 with first_speech_time := some first
                            detect_buffer := s0.detect_buffer ++ chunk }
        let elapsed := now - first
        -- lines 513-518: initial Whisper detection once MIN_DETECT_SEC is up
        let pr1 :=
          if MIN_DETECT_SEC ≤ elapsed then
            let lang0 := o.whisper_detect s1.detect_buffer
            (some (if inLangMap lang0 then lang0 else "english"),
             [Act.whisper_detect_call s1.detect_buffer])
          else ((none : Option String), ([] : List Act))
        -- lines 521-522: hard ceiling, force english
        let pr2 := if MAX_DETECT_SEC ≤ elapsed ∧ pr1.1 = none then some "english" else pr1.1
        -- lines 525-531: provisional decided → lang event, start engine, flush
        match pr2 with
        | some L =>
          .ok ({ s1 with provisional_lang := some L
                         push_stream_open := true
                         detect_buffer := [] },
               pr1.2 ++ [Act.event (.lang L), Act.azure_start (langMapGet L "en-US")]
                     ++ (if s1.detect_buffer ≠ [] then [Act.push_write s1.detect_buffer] else []))
        | none => .ok (s1, pr1.2)
  | some _ =>
    -- lines 534-535: provisional decided, feed the engine
    .ok (s0, if s0.push_stream_open then [Act.push_write chunk] else [])

/-- Fold of `process_chunk` over a timed chunk sequence. -/
def process_chunks (o : Oracle) : SessionState → List (List Nat × ℚ) →
    Except String (SessionState × List Act)
  | s, [] => .ok (s, [])
  | s, (ch, now) :: rest =>
    match process_chunk o s ch now with
    | .error e => .error e
    | .ok (s1, a1) =>
      match process_chunks o s1 rest with
      | .error e => .error e
      | .ok (s2, a2) => .ok (s2, a1 ++ a2)

/-!
HTTP-level models of the collaborator helpers, for the error-handling
claims.  `HttpResp` carries the response status and the pieces of the JSON
body the helpers actually read; a `none` field models a body from which the
corresponding lookup would fail.
-/

/-- An HTTP response as consumed by the helpers. -/
structure HttpResp where
  status : Nat
  json_language : Option String
  json_text : Option String
  json_translations_text : Option String
deriving DecidableEq, Repr

/-- Outcome of `whisper_detect` (main.py lines 101-121) given the response:
empty audio and non-200 responses degrade to `"unknown"`; otherwise the
truthy `language` field, lower-cased, else `"unknown"`. -/
def whisper_detect_http (pcm : List Nat) (resp : HttpResp) : String :=
  if pcm = [] then "unknown"
  else if resp.status ≠ 200 then "unknown"
  else match resp.json_language with
    | some l => if l = "" then "unknown" else l.toLower
    | none => "unknown"

/-- Outcome of `whisper_transcribe` (main.py lines 127-145): empty audio and
non-200 responses degrade to the empty string. -/
def whisper_transcribe_http (pcm : List Nat) (resp : HttpResp) : String :=
  if pcm = [] then ""
  else if resp.status ≠ 200 then ""
  else resp.json_text.getD ""

/-- Outcome of `azure_translate` in main.py (lines 178-193).  The source
checks neither the status nor the body shape: after the blank-text early
return it evaluates `data[0]["translations"][0]["text"]` unconditionally, so
a response whose body lacks that path (as every non-success Translator
response does) raises — modelled as `Except.error`. -/
def azure_translate_http (text : String) (resp : HttpResp) : Except String String :=
  if pyStripTruthy text = false then .ok ""
  else match resp.json_translations_text with
    | some tr => .ok tr
    | none => .error "TypeError: response body has no translations list"

/-- Outcome of `azure_translate` in ws_fixed.py (lines 49-81): blank text,
non-200 status and any exception (malformed body) all yield the empty
string. -/
def azure_translate_fixed_http (text : String) (resp : HttpResp) : String :=
  if text = "" then ""
  else if pyStripTruthy text = false then ""
  else if resp.status ≠ 200 then ""
  else resp.json_translations_text.getD ""

/-!
Partial-hypothesis translation paths.

In the adaptive core, `on_partial` (main.py lines 284-295) schedules a
translation for EVERY non-empty partial hypothesis immediately.

In fixed mode, `on_recognizing` (ws_fixed.py lines 188-217) keeps
`last_partial_text` and a cancellable 0.3 s debounce task; the models below
drive those callbacks over a timed hypothesis sequence, firing a pending
timer when its deadline has passed and flushing the last pending timer at
end of stream.
-/

/-- One `on_partial` callback of the adaptive core (main.py lines 284-295):
a non-empty hypothesis emits the interim transcript and immediately
schedules its translation; timing plays no role. -/
def on_partial_main_step (text : String) : List Act :=
  if text = "" then []
  else [.event (.interim text), .mid_translate_request text]

/-- The adaptive core's partial-hypothesis trace over a timed sequence (the
times are ignored by the source, and hence here). -/
def run_partials_main : List (ℚ × String) → List Act
  | [] => []
  | (_, x) :: rest => on_partial_main_step x ++ run_partials_main rest

/-- Debounce seconds `asyncio.sleep(0.3)` (ws_fixed.py line 212). -/
def DEBOUNCE_SEC : ℚ := 3/10

/-- State of the fixed-mode partial pipeline: `last_partial_text`
(ws_fixed.py line 141) and the pending debounce task with the hypothesis it
will translate and its deadline. -/
structure FixedDebounceState where
  last_partial_text : String
  pending : Option (String × ℚ)
deriving DecidableEq, Repr

/-- Fire the pending debounce task if its deadline has passed. -/
def fire_due (st : FixedDebounceState) (now : ℚ) : FixedDebounceState × List Act :=
  match st.pending with
  | some (txt, ft) =>
    if ft ≤ now then ({ st with pending := none }, [.mid_translate_request txt])
    else (st, [])
  | none => (st, [])

/-- One `on_recognizing` callback (ws_fixed.py lines 188-217): empty text
returns; a repeat of `last_partial_text` emits the interim event but keeps
the pending task; a new text emits the interim event, cancels any pending
task and schedules a fresh one 0.3 s out. -/
def on_recognizing_fixed (st : FixedDebounceState) (now : ℚ) (text : String) :
    FixedDebounceState × List Act :=
  if text = "" then (st, [])
  else if text = st.last_partial_text then (st, [.event (.interim text)])
  else ({ last_partial_text := text, pending := some (text, now + DEBOUNCE_SEC) },
        [.event (.interim text)])

/-- Drive the fixed-mode pipeline over a timed hypothesis sequence: before
each arrival any due timer fires; after the stream ends the surviving
pending task fires. -/
def run_partials_fixed : FixedDebounceState → List (ℚ × String) → FixedDebounceState × List Act
  | st, [] =>
    match st.pending with
    | some (txt, _) => ({ st with pending := none }, [.mid_translate_request txt])
    | none => (st, [])
  | st, (now, text) :: rest =>
    let r1 := fire_due st now
    let r2 := on_recognizing_fixed r1.1 now text
    let r3 := run_partials_fixed r2.1 rest
    (r3.1, r1.2 ++ r2.2 ++ r3.2)

/-- The hypotheses actually submitted for translation in a trace. -/
def requestsOf (l : List Act) : List String :=
  l.filterMap fun a => match a with
    | .mid_translate_request t => some t
    | _ => none

/-!
Structural lemmas about `on_final` used by the claim theorems.
-/

/-- An action belonging to the rollback machinery: an invalidation event or
an event marked `replayed`. -/
def isRollbackAct : Act → Bool
  | .event .invalidate_all_asr => true
  | .event .invalidate_all_translation => true
  | .event (.final _ _ r) => r
  | .event (.final_translate _ _ _ r) => r
  | _ => false

/-- Recognise the `invalidate_all_asr` event. -/
def isInvAsr : Act → Bool
  | .event .invalidate_all_asr => true
  | _ => false

/-- Number of `invalidate_all_asr` events in a trace. -/
def invCount (l : List Act) : ℕ := l.countP isInvAsr

theorem invCount_append (l1 l2 : List Act) :
    invCount (l1 ++ l2) = invCount l1 + invCount l2 :=
  List.countP_append _ _ _

/-- The replay of the ledger emits exactly the per-entry corrective events,
in ledger order, independent of the clock and of the merge context being
threaded through. -/
theorem replay_run_acts (o : Oracle) (c : ℕ → ℚ) (l : List HistoryEntry) :
    ∀ (k : ℕ) (ctx : MergeCtx),
      (replay_run o c k ctx l).2 = l.flatMap (replayEventsOf o) := by
  induction l with
  | nil => intro k ctx; rfl
  | cons e rest ih =>
    intro k ctx
    simp only [replay_run, List.flatMap_cons, ih]

/-- The main `final_translate` event is never marked `replayed`. -/
theorem mainFtEvt_not_rollback (o : Oracle) (c : ℕ → ℚ) (s : SessionState) (t : String) :
    isRollbackAct (.event (mainFtEvtOf o c s t)) = false := by
  unfold mainFtEvtOf
  split <;> rfl

theorem baseActs_no_rollback (o : Oracle) (c : ℕ → ℚ) (s : SessionState) (t : String) :
    (baseActsOf o c s t).filter isRollbackAct = [] := by
  unfold baseActsOf mainFtEvtOf
  split <;> rfl

theorem invCount_baseActs (o : Oracle) (c : ℕ → ℚ) (s : SessionState) (t : String) :
    invCount (baseActsOf o c s t) = 0 := by
  unfold invCount baseActsOf mainFtEvtOf
  split <;> rfl

theorem invCount_replayEvents (o : Oracle) (e : HistoryEntry) :
    invCount (replayEventsOf o e) = 0 := by
  unfold invCount replayEventsOf
  split <;> split <;> rfl

theorem invCount_replay_flat (o : Oracle) (l : List HistoryEntry) :
    invCount (l.flatMap (replayEventsOf o)) = 0 := by
  induction l with
  | nil => rfl
  | cons e rest ih =>
    simp only [List.flatMap_cons, invCount_append, invCount_replayEvents, ih]

/-- When the language is already locked, `on_final` is the plain path. -/
theorem on_final_locked (o : Oracle) (c : ℕ → ℚ) (s : SessionState) (t : String)
    (h : s.lang_locked = true) : on_final o c s t = plainResult o c s t := by
  unfold on_final
  rw [if_pos h]

/-- `on_final` never unlocks a locked session. -/
theorem on_final_keeps_lock (o : Oracle) (c : ℕ → ℚ) (s : SessionState) (t : String)
    (h : s.lang_locked = true) : (on_final o c s t).1.lang_locked = true := by
  rw [on_final_locked o c s t h]
  exact h

theorem invCount_plainResult (o : Oracle) (c : ℕ → ℚ) (s : SessionState) (t : String) :
    invCount (plainResult o c s t).2 = 0 :=
  invCount_baseActs o c s t

theorem invCount_lockResult (o : Oracle) (c : ℕ → ℚ) (s : SessionState) (t : String) :
    invCount (lockResult o c s t).2 = 0 := by
  unfold lockResult
  rw [invCount_append, invCount_baseActs]
  rfl

theorem invCount_mismatchResult (o : Oracle) (c : ℕ → ℚ) (s : SessionState) (t : String) :
    invCount (mismatchResult o c s t).2 = 1 := by
  unfold mismatchResult
  simp only [invCount_append, invCount_baseActs, replay_run_acts, invCount_replay_flat]
  have h4 : invCount (if s.push_stream_open then [Act.azure_stop] else []) = 0 := by
    split <;> rfl
  rw [h4,
    show invCount [Act.event Event.invalidate_all_asr,
      Act.event Event.invalidate_all_translation] = 1 from rfl,
    show invCount [Act.event (Event.lang_locked (detectedOf o s))] = 0 from rfl,
    show invCount [Act.azure_start (langMapGet (detectedOf o s) "en-US")] = 0 from rfl]

/-- A single `on_final` emits at most one `invalidate_all_asr`. -/
theorem on_final_invCount_le_one (o : Oracle) (c : ℕ → ℚ) (s : SessionState) (t : String) :
    invCount (on_final o c s t).2 ≤ 1 := by
  unfold on_final
  split
  · rw [invCount_plainResult]; omega
  · split
    · split
      · rw [invCount_mismatchResult]
      · split
        · rw [invCount_lockResult]; omega
        · rw [invCount_plainResult]; omega
    · rw [invCount_plainResult]; omega

/-- If an `on_final` run emitted an invalidation, the resulting state is
locked. -/
theorem on_final_inv_locks (o : Oracle) (c : ℕ → ℚ) (s : SessionState) (t : String)
    (h : 0 < invCount (on_final o c s t).2) : (on_final o c s t).1.lang_locked = true := by
  by_cases hl : s.lang_locked = true
  · exact on_final_keeps_lock o c s t hl
  · revert h
    unfold on_final
    rw [if_neg hl]
    split
    · split
      · intro _; rfl
      · split
        · intro _; rfl
        · intro h
          rw [invCount_plainResult] at h
          exact absurd h (by omega)
    · intro h
      rw [invCount_plainResult] at h
      exact absurd h (by omega)

/-- From a locked state the whole run keeps the lock and its trace contains
no rollback action at all. -/
theorem run_finals_locked (o : Oracle) (us : List (String × (ℕ → ℚ))) :
    ∀ s : SessionState, s.lang_locked = true →
      (run_finals o s us).1.lang_locked = true ∧
      (run_finals o s us).2.filter isRollbackAct = [] := by
  induction us with
  | nil => intro s h; exact ⟨h, rfl⟩
  | cons u rest ih =>
    intro s h
    obtain ⟨t, c⟩ := u
    have hcall := on_final_locked o c s t h
    have hlock := on_final_keeps_lock o c s t h
    obtain ⟨ih1, ih2⟩ := ih (on_final o c s t).1 hlock
    constructor
    · simpa [run_finals] using ih1
    · simp only [run_finals, List.filter_append, ih2, List.append_nil]
      rw [hcall]
      exact baseActs_no_rollback o c s t

/-- From a locked state the run emits no `invalidate_all_asr` at all. -/
theorem run_finals_locked_invCount (o : Oracle) (us : List (String × (ℕ → ℚ))) :
    ∀ s : SessionState, s.lang_locked = true →
      invCount (run_finals o s us).2 = 0 := by
  induction us with
  | nil => intro s _; rfl
  | cons u rest ih =>
    intro s h
    obtain ⟨t, c⟩ := u
    simp only [run_finals, invCount_append]
    rw [on_final_locked o c s t h, invCount_plainResult,
      ih (plainResult o c s t).1
        (show (plainResult o c s t).1.lang_locked = true from h)]

/-- Any run of `on_final` steps emits at most one `invalidate_all_asr`. -/
theorem run_finals_invCount_le_one (o : Oracle) (us : List (String × (ℕ → ℚ))) :
    ∀ s : SessionState, invCount (run_finals o s us).2 ≤ 1 := by
  induction us with
  | nil => intro s; simp [run_finals, invCount]
  | cons u rest ih =>
    intro s
    obtain ⟨t, c⟩ := u
    simp only [run_finals, invCount_append]
    rcases Nat.eq_zero_or_pos (invCount (on_final o c s t).2) with h0 | hpos
    · rw [h0]
      simpa using ih (on_final o c s t).1
    · have hlock := on_final_inv_locks o c s t hpos
      have hrest := run_finals_locked_invCount o rest (on_final o c s t).1 hlock
      have hle := on_final_invCount_le_one o c s t
      omega

/-!
Concrete fixtures used by witnesses and counterexamples.
-/

/-- A fixed clock. -/
def clk0 : ℕ → ℚ := fun _ => 0

/-- An oracle whose per-utterance detector always answers `"japanese"` and
whose embedder always fails (degrading merge decisions). -/
def oracleJa : Oracle :=
  { whisper_detect := fun _ => "japanese"
    whisper_transcribe := fun _ => "corrected-text"
    whisper_translate := fun _ => "corrected-translation"
    azure_translate := fun t _ => "tr:" ++ t
    embed := fun _ => none }

/-- An oracle whose per-utterance detector always answers `"english"`. -/
def oracleEn : Oracle :=
  { whisper_detect := fun _ => "english"
    whisper_transcribe := fun _ => "corrected-text"
    whisper_translate := fun _ => "corrected-translation"
    azure_translate := fun t _ => "tr:" ++ t
    embed := fun _ => none }

/-- A session that has already locked its language. -/
def lockedStateW : SessionState :=
  { initState with
      lang_locked := true
      provisional_lang := some "japanese"
      push_stream_open := true
      current_utt_audio := [7, 8] }

/-- An unlocked session with provisional language `"japanese"` and one
prior ledger entry. -/
def stateC1 : SessionState :=
  { initState with
      provisional_lang := some "japanese"
      push_stream_open := true
      current_utt_audio := [1, 2]
      utterance_history := [{ pcm := [3, 4], azure_text := "prior",
                              azure_translation := some "prior-tr" }] }

/-- An unlocked session with provisional language `"japanese"`, empty
ledger, about to process its first utterance. -/
def stateJa : SessionState :=
  { initState with
      provisional_lang := some "japanese"
      push_stream_open := true
      current_utt_audio := [1, 2] }

/-- C2.  Once the controller has reached LOCKED, no subsequent utterance
causes an `invalidate_all_asr` / `invalidate_all_translation` event or any
replayed corrective event, regardless of detector output; and over any run
of utterances a mismatch happens at most once (at most one
`invalidate_all_asr` in the whole trace). -/
theorem c2_lock_idempotent_no_invalidation (o : Oracle) (s : SessionState)
    (us : List (String × (ℕ → ℚ))) :
    (s.lang_locked = true → (run_finals o s us).2.filter isRollbackAct = []) ∧
    invCount (run_finals o s us).2 ≤ 1 :=
  ⟨fun h => (run_finals_locked o us s h).2, run_finals_invCount_le_one o us s⟩

theorem c2_lock_idempotent_no_invalidation_witness :
    (run_finals oracleEn lockedStateW [("hello", clk0), ("world", clk0)]).2.filter
        isRollbackAct = [] ∧
    invCount (run_finals oracleEn lockedStateW [("hello", clk0), ("world", clk0)]).2 ≤ 1 :=
  ⟨(c2_lock_idempotent_no_invalidation oracleEn lockedStateW
      [("hello", clk0), ("world", clk0)]).1 rfl,
   (c2_lock_idempotent_no_invalidation oracleEn lockedStateW
      [("hello", clk0), ("world", clk0)]).2⟩

/-- The non-success HTTP response used for the error-handling claim:
status 401, no parseable fields in the body. -/
def errResp : HttpResp :=
  { status := 401, json_language := none, json_text := none,
    json_translations_text := none }

/-- C7.  On a non-success collaborator response the language detector
degrades to `"unknown"`, transcription degrades to `""` and the fixed-mode
translator fails closed to `""` — but the adaptive core's `azure_translate`
(main.py lines 178-193) checks neither status nor body shape and raises
while indexing into the error body, so it does NOT fail closed to the
empty string: the `on_final` task aborts instead of degrading. -/
theorem c7_translate_not_fail_closed :
    whisper_detect_http [1, 2] errResp = "unknown" ∧
    whisper_transcribe_http [1, 2] errResp = "" ∧
    azure_translate_fixed_http "hello" errResp = "" ∧
    azure_translate_http "hello" errResp =
      Except.error "TypeError: response body has no translations list" :=
  ⟨rfl, rfl, rfl, rfl⟩

/-- C10 counterexample.  A one-byte inbound frame makes `rms_energy` raise
`struct.error` (the unpack format consumes `2 * (1 // 2) = 0` bytes but the
buffer holds 1), so per-chunk processing is NOT total over arbitrary byte
lengths. -/
theorem c10_rms_odd_length_raises_cex :
    rms_energy_sq [0] =
      Except.error "struct.error: unpack requires a buffer of an even number of bytes" :=
  rfl

/-- C10 amended.  For every inbound frame consisting of whole 16-bit
samples (even byte length) the RMS computation succeeds. -/
theorem c10_rms_total_on_even_frames (pcm : List Nat) (h : pcm.length % 2 = 0) :
    ∃ q : ℚ, rms_energy_sq pcm = .ok q := by
  unfold rms_energy_sq
  by_cases hn : pcm = []
  · rw [if_pos hn]
    exact ⟨0, rfl⟩
  · rw [if_neg hn, if_pos h]
    exact ⟨_, rfl⟩

theorem c10_rms_total_on_even_frames_witness :
    ([0, 0] : List Nat).length % 2 = 0 ∧ ∃ q : ℚ, rms_energy_sq [0, 0] = .ok q :=
  ⟨by decide, c10_rms_total_on_even_frames [0, 0] (by decide)⟩

/-- C3 counterexample.  A first utterance whose verification detector
confirms the provisional language (case B) locks the session but does NOT
clear the utterance history: afterwards `lang_locked = true` while the
history still holds the just-recorded entry, contradicting the invariant
that the history is non-empty only while unlocked. -/
theorem c3_history_nonempty_after_lock_cex :
    (on_final oracleJa clk0 stateJa "konnichiwa").1.lang_locked = true ∧
    (on_final oracleJa clk0 stateJa "konnichiwa").1.utterance_history ≠ [] := by
  constructor
  · rfl
  · decide

/-- C3 amended.  Every utterance — locked or not — is appended to the
history; the history is cleared exactly when the mismatch (case A)
rollback replay runs; a case B lock does not clear it and entries keep
accumulating after the lock. -/
theorem c3_history_cleared_only_by_rollback (o : Oracle) (c : ℕ → ℚ)
    (s : SessionState) (t : String) :
    ((on_final o c s t).1.utterance_history = s.utterance_history ++ [newEntryOf o s t] ∨
      (on_final o c s t).1.utterance_history = []) ∧
    ((on_final o c s t).1.utterance_history = [] ↔
      (s.lang_locked = false ∧ ∃ p, provisional1Of o s = some p ∧
        inLangMap (detectedOf o s) = true ∧ detectedOf o s ≠ p)) := by
  unfold on_final
  split
  next hl =>
    refine ⟨Or.inl rfl, ?_, ?_⟩
    · intro h
      simp [plainResult] at h
    · rintro ⟨hfalse, -⟩
      rw [hl] at hfalse
      cases hfalse
  next hl =>
    have hl' : s.lang_locked = false := by
      cases hsl : s.lang_locked
      · rfl
      · exact absurd hsl hl
    split
    next p hp =>
      split
      next hcond =>
        exact ⟨Or.inr rfl, fun _ => ⟨hl', p, hp, hcond.1, hcond.2⟩, fun _ => rfl⟩
      next hcond =>
        split
        next heq =>
          refine ⟨Or.inl rfl, ?_, ?_⟩
          · intro h
            simp [lockResult] at h
          · rintro ⟨-, q, hq, hin, hne⟩
            rw [hp] at hq
            injection hq with hq
            subst hq
            exact absurd ⟨hin, hne⟩ hcond
        next heq =>
          refine ⟨Or.inl rfl, ?_, ?_⟩
          · intro h
            simp [plainResult] at h
          · rintro ⟨-, q, hq, hin, hne⟩
            rw [hp] at hq
            injection hq with hq
            subst hq
            exact absurd ⟨hin, hne⟩ hcond
    next hp =>
      refine ⟨Or.inl rfl, ?_, ?_⟩
      · intro h
        simp [plainResult] at h
      · rintro ⟨-, q, hq, -⟩
        rw [hp] at hq
        cases hq

theorem c3_history_cleared_only_by_rollback_witness :
    (on_final oracleEn clk0 stateC1 "hello").1.utterance_history = [] :=
  (c3_history_cleared_only_by_rollback oracleEn clk0 stateC1 "hello").2.mpr
    ⟨rfl, "japanese", rfl, by decide, by decide⟩

/-- C4 counterexample.  From an already-locked state, processing a final
utterance still performs a per-utterance language detection call
(main.py line 377 runs before the line 385 lock check), contradicting "no
further language detection is ever performed". -/
theorem c4_detector_called_after_lock_cex :
    lockedStateW.lang_locked = true ∧
    Act.whisper_detect_call [7, 8] ∈ (on_final oracleJa clk0 lockedStateW "hi").2 := by
  constructor
  · rfl
  · decide

/-- C4 amended.  After the lock, the detector is still invoked on each
utterance, but its output is ignored: the resulting state and the
client-visible events are identical for any two detector behaviours, and
the utterance is processed for transcript and translation only (exactly one
`final` and one `final_translate` event, the latter not replayed). -/
theorem c4_detection_ignored_after_lock (o : Oracle) (d1 d2 : List Nat → String)
    (c : ℕ → ℚ) (s : SessionState) (t : String) (p : String)
    (hl : s.lang_locked = true) (hp : s.provisional_lang = some p) :
    on_final { o with whisper_detect := d1 } c s t
      = on_final { o with whisper_detect := d2 } c s t ∧
    Act.whisper_detect_call s.current_utt_audio
      ∈ (on_final { o with whisper_detect := d1 } c s t).2 ∧
    eventsOf (on_final { o with whisper_detect := d1 } c s t).2
      = [Event.final t false false, mainFtEvtOf { o with whisper_detect := d1 } c s t] ∧
    ∃ tr prov rl, mainFtEvtOf { o with whisper_detect := d1 } c s t
      = Event.final_translate tr prov rl false := by
  rw [on_final_locked { o with whisper_detect := d1 } c s t hl,
    on_final_locked { o with whisper_detect := d2 } c s t hl]
  refine ⟨?_, ?_, ?_, ?_⟩
  · have hpp : ∀ d : List Nat → String,
        provisional1Of { o with whisper_detect := d } s = some p := by
      intro d
      unfold provisional1Of
      rw [hp]
    unfold plainResult
    rw [hpp d1, hpp d2]
    rfl
  · unfold plainResult baseActsOf
    simp
  · rfl
  · unfold mainFtEvtOf
    split
    · exact ⟨_, _, _, rfl⟩
    · exact ⟨_, _, _, rfl⟩

theorem c4_detection_ignored_after_lock_witness :
    on_final { oracleJa with whisper_detect := fun _ => "english" } clk0 lockedStateW "hi"
      = on_final { oracleJa with whisper_detect := fun _ => "korean" } clk0 lockedStateW "hi" :=
  (c4_detection_ignored_after_lock oracleJa (fun _ => "english") (fun _ => "korean")
    clk0 lockedStateW "hi" "japanese" rfl rfl).1

/-- The merge condition as the specification states it: a merge context
with text, embedding and timestamp exists, an embedding for the new
translation was obtained, the (real-valued) cosine similarity strictly
exceeds 0.75, and the elapsed time since the previous translation is
strictly below 1.0 s. -/
def mergeCondOf (o : Oracle) (c : ℕ → ℚ) (s : SessionState) (t : String) : Prop :=
  ∃ p le lt e, s.last_translation_text = some p ∧
    s.last_translation_embedding = some le ∧
    s.last_translation_time = some lt ∧
    o.embed (transOf o t) = some e ∧
    (((3/4 : ℚ) : ℝ) < cosine e le) ∧ c 0 - lt < 1

theorem mergeFlag_iff (o : Oracle) (c : ℕ → ℚ) (s : SessionState) (t : String) :
    mergeFlagOf o c s t = true ↔
      ∃ le lt e, s.last_translation_embedding = some le ∧
        s.last_translation_time = some lt ∧
        o.embed (transOf o t) = some e ∧
        (((3/4 : ℚ) : ℝ) < cosine e le) ∧ c 0 - lt < 1 := by
  unfold mergeFlagOf
  cases hemb : o.embed (transOf o t) with
  | none =>
    constructor
    · intro h
      cases h
    · rintro ⟨le, lt', e, -, -, he, -⟩
      cases he
  | some e =>
    cases hle : s.last_translation_embedding with
    | none =>
      constructor
      · intro h
        cases h
      · rintro ⟨le, lt', e', hle', -⟩
        cases hle'
    | some le =>
      cases hlt : s.last_translation_time with
      | none =>
        constructor
        · intro h
          cases h
        · rintro ⟨le', lt', e', -, hlt', -⟩
          cases hlt'
      | some lt' =>
        rw [Bool.and_eq_true, decide_eq_true_eq, cosine_gt_iff e le (3/4) (by norm_num)]
        constructor
        · rintro ⟨hcos, hdt⟩
          exact ⟨le, lt', e, rfl, rfl, rfl, hcos, hdt⟩
        · rintro ⟨le2, lt2, e2, hle2, hlt2, he2, hcos, hdt⟩
          injection hle2 with hle2
          injection hlt2 with hlt2
          injection he2 with he2
          subst hle2
          subst hlt2
          subst he2
          exact ⟨hcos, hdt⟩

theorem mainFtEvt_cases (o : Oracle) (c : ℕ → ℚ) (s : SessionState) (t : String) :
    (mergeCondOf o c s t ∧ mainFtEvtOf o c s t
        = .final_translate (s.last_translation_text.getD "" ++ " " ++ transOf o t)
            (!s.lang_locked) true false) ∨
    (¬ mergeCondOf o c s t ∧ mainFtEvtOf o c s t
        = .final_translate (transOf o t) (!s.lang_locked) false false) := by
  unfold mainFtEvtOf
  cases hflag : mergeFlagOf o c s t with
  | false =>
    right
    refine ⟨?_, rfl⟩
    rintro ⟨p, le, lt', e, -, hle, hlt, he, hcos, hdt⟩
    have : mergeFlagOf o c s t = true :=
      (mergeFlag_iff o c s t).mpr ⟨le, lt', e, hle, hlt, he, hcos, hdt⟩
    rw [hflag] at this
    cases this
  | true =>
    cases htext : s.last_translation_text with
    | none =>
      right
      refine ⟨?_, rfl⟩
      rintro ⟨p, le, lt', e, hp, -⟩
      rw [htext] at hp
      cases hp
    | some p =>
      left
      obtain ⟨le, lt', e, hle, hlt, he, hcos, hdt⟩ := (mergeFlag_iff o c s t).mp hflag
      exact ⟨⟨p, le, lt', e, htext, hle, hlt, he, hcos, hdt⟩, rfl⟩

/-- C5.  The translation pipeline of `on_final` always emits the `final`
transcript event, then exactly one `final_translate` event, then the
verification detect call; and that `final_translate` event is the merge
form (`replace_last` true, text = previous text + single space + new
translation) IF AND ONLY IF a full merge context exists, an embedding for
the new translation was obtained, the cosine similarity strictly exceeds
0.75 and the elapsed time is strictly under 1.0 s; otherwise it is a fresh
entry (`replace_last` false) carrying just the new translation.  In
particular similarity exactly 0.75 or elapsed exactly 1.0 s does not
merge. -/
theorem c5_merge_iff_similarity_and_gap (o : Oracle) (c : ℕ → ℚ)
    (s : SessionState) (t : String) :
    (∃ tail, (on_final o c s t).2
        = Act.event (Event.final t false false) :: Act.event (mainFtEvtOf o c s t)
          :: Act.whisper_detect_call s.current_utt_audio :: tail) ∧
    (mergeCondOf o c s t ↔
      mainFtEvtOf o c s t
        = Event.final_translate (s.last_translation_text.getD "" ++ " " ++ transOf o t)
            (!s.lang_locked) true false) ∧
    (¬ mergeCondOf o c s t →
      mainFtEvtOf o c s t
        = Event.final_translate (transOf o t) (!s.lang_locked) false false) := by
  refine ⟨?_, ⟨?_, ?_⟩, ?_⟩
  · unfold on_final
    split
    · exact ⟨_, rfl⟩
    · split
      · split
        · exact ⟨_, rfl⟩
        · split
          · exact ⟨_, rfl⟩
          · exact ⟨_, rfl⟩
      · exact ⟨_, rfl⟩
  · intro hm
    rcases mainFtEvt_cases o c s t with ⟨-, heq⟩ | ⟨hnc, -⟩
    · exact heq
    · exact absurd hm hnc
  · intro heq
    rcases mainFtEvt_cases o c s t with ⟨hc, -⟩ | ⟨-, heq2⟩
    · exact hc
    · rw [heq2] at heq
      injection heq with h1 h2 h3 h4
      cases h3
  · intro hnc
    rcases mainFtEvt_cases o c s t with ⟨hc, -⟩ | ⟨-, heq⟩
    · exact absurd hc hnc
    · exact heq

/-- A session holding a fresh merge context (text, embedding, timestamp). -/
def stateMerge : SessionState :=
  { initState with
      last_translation_text := some "prev"
      last_translation_embedding := some [1]
      last_translation_time := some 0 }

/-- An oracle whose embedder answers the one-dimensional vector `[1]`. -/
def oracleM : Oracle :=
  { whisper_detect := fun _ => "unknown"
    whisper_transcribe := fun _ => "x"
    whisper_translate := fun _ => "y"
    azure_translate := fun t _ => "tr:" ++ t
    embed := fun _ => some [1] }

/-- The clock reading 0.5 s. -/
def clkHalf : ℕ → ℚ := fun _ => 1/2

theorem c5_merge_iff_similarity_and_gap_witness :
    mainFtEvtOf oracleM clkHalf stateMerge "hi"
      = Event.final_translate
          (stateMerge.last_translation_text.getD "" ++ " " ++ transOf oracleM "hi")
          (!stateMerge.lang_locked) true false :=
  (c5_merge_iff_similarity_and_gap oracleM clkHalf stateMerge "hi").2.1.mp
    ⟨"prev", [1], 0, [1], rfl, rfl, rfl, rfl,
      (cosine_gt_iff [1] [1] (3/4) (by norm_num)).mp
        (by norm_num [cosine_gt, dotQ, sqQ, COSINE_EPS]),
      by norm_num [clkHalf]⟩

/-- C1.  When the language is not yet locked and the per-utterance detector
returns a recognized language different from the provisional one,
`on_final` performs the mismatch handling in order: (after the ordinary
transcript/translation emission and the detect call) the merge context is
reset and rebuilt by the replay, `invalidate_all_asr` then
`invalidate_all_translation` are emitted, every ledger entry (including the
current utterance) is replayed in original order — each contributing its
corrected `final` and corrected replayed `final_translate` event, either
being skipped exactly when the corrected text comes back blank while later
entries still run (see `replayEventsOf`) — the ledger is cleared, the
provisional language becomes the detected one, the state is locked with no
further verification, the `lang_locked` event carries the detected
language, and the engine is stopped and restarted with the new language's
locale. -/
theorem c1_mismatch_rollback_sequence (o : Oracle) (c : ℕ → ℚ) (s : SessionState)
    (t : String) (p : String)
    (hl : s.lang_locked = false) (hp : s.provisional_lang = some p)
    (hin : inLangMap (detectedOf o s) = true) (hne : detectedOf o s ≠ p)
    (hpush : s.push_stream_open = true) :
    on_final o c s t =
      ({ s with
          current_utt_audio := []
          utterance_history := []
          provisional_lang := some (detectedOf o s)
          lang_locked := true
          push_stream_open := true
          last_translation_text := (replayCtxOf o c s t).text
          last_translation_embedding := (replayCtxOf o c s t).emb
          last_translation_time := (replayCtxOf o c s t).time },
       baseActsOf o c s t
         ++ [Act.event Event.invalidate_all_asr, Act.event Event.invalidate_all_translation]
         ++ (s.utterance_history ++ [newEntryOf o s t]).flatMap (replayEventsOf o)
         ++ [Act.event (Event.lang_locked (detectedOf o s)),
             Act.azure_stop,
             Act.azure_start (langMapGet (detectedOf o s) "en-US")]) := by
  have hp1 : provisional1Of o s = some p := by
    unfold provisional1Of
    rw [hp]
  unfold on_final
  rw [if_neg (by rw [hl]; exact Bool.false_ne_true)]
  simp only [hp1]
  rw [if_pos ⟨hin, hne⟩]
  unfold mismatchResult
  rw [replay_run_acts]
  rw [if_pos hpush]
  unfold replayCtxOf
  simp [List.append_assoc]

theorem c1_mismatch_rollback_sequence_witness :
    stateC1.lang_locked = false ∧ stateC1.provisional_lang = some "japanese" ∧
    inLangMap (detectedOf oracleEn stateC1) = true ∧
    detectedOf oracleEn stateC1 ≠ "japanese" ∧
    stateC1.push_stream_open = true ∧
    on_final oracleEn clk0 stateC1 "hello" =
      ({ stateC1 with
          current_utt_audio := []
          utterance_history := []
          provisional_lang := some (detectedOf oracleEn stateC1)
          lang_locked := true
          push_stream_open := true
          last_translation_text := (replayCtxOf oracleEn clk0 stateC1 "hello").text
          last_translation_embedding := (replayCtxOf oracleEn clk0 stateC1 "hello").emb
          last_translation_time := (replayCtxOf oracleEn clk0 stateC1 "hello").time },
       baseActsOf oracleEn clk0 stateC1 "hello"
         ++ [Act.event Event.invalidate_all_asr, Act.event Event.invalidate_all_translation]
         ++ (stateC1.utterance_history ++ [newEntryOf oracleEn stateC1 "hello"]).flatMap
              (replayEventsOf oracleEn)
         ++ [Act.event (Event.lang_locked (detectedOf oracleEn stateC1)),
             Act.azure_stop,
             Act.azure_start (langMapGet (detectedOf oracleEn stateC1) "en-US")]) :=
  ⟨rfl, rfl, by decide, by decide, rfl,
   c1_mismatch_rollback_sequence oracleEn clk0 stateC1 "hello" "japanese"
     rfl rfl (by decide) (by decide) rfl⟩

/-- The provisional language adopted at detection time (main.py
lines 514-518): the detector's tag when recognized, else `"english"`. -/
def adoptedLang (o : Oracle) (db : List Nat) : String :=
  if inLangMap (o.whisper_detect db) then o.whisper_detect db else "english"

/-- Evaluation of one pre-detection chunk step that crosses the detection
threshold: `process_chunk` invokes the detector once on the accumulated
buffer, adopts the recognized tag (falling back to `"english"`), emits the
`lang` event, starts the engine with the mapped locale, flushes the buffer
into the engine and clears it. -/
theorem process_chunk_detect_step (o : Oracle) (s : SessionState) (chunk : List Nat)
    (now f ms : ℚ)
    (hprov : s.provisional_lang = none)
    (hrms : rms_energy_sq chunk = .ok ms)
    (hloud : ¬ ms < SILENCE_RMS_THRESHOLD ^ 2)
    (hf : s.first_speech_time = some f)
    (helapsed : MIN_DETECT_SEC ≤ now - f) :
    process_chunk o s chunk now = .ok
      ({ s with
          current_utt_audio := s.current_utt_audio ++ chunk
          detect_buffer := []
          provisional_lang := some (adoptedLang o (s.detect_buffer ++ chunk))
          push_stream_open := true
          first_speech_time := some f },
       [Act.whisper_detect_call (s.detect_buffer ++ chunk),
        Act.event (Event.lang (adoptedLang o (s.detect_buffer ++ chunk))),
        Act.azure_start (langMapGet (adoptedLang o (s.detect_buffer ++ chunk)) "en-US"),
        Act.push_write (s.detect_buffer ++ chunk)]) := by
  have hchunk : chunk ≠ [] := by
    intro h
    subst h
    rw [show rms_energy_sq [] = Except.ok 0 from rfl] at hrms
    injection hrms with h0
    apply hloud
    rw [← h0]
    norm_num [SILENCE_RMS_THRESHOLD]
  unfold process_chunk
  simp only [hprov, hrms, hf, Option.getD_some]
  rw [if_neg hloud, if_pos helapsed]
  rw [if_neg (show ¬ (MAX_DETECT_SEC ≤ now - f ∧
        (some (if inLangMap (o.whisper_detect (s.detect_buffer ++ chunk))
          then o.whisper_detect (s.detect_buffer ++ chunk) else "english"),
         [Act.whisper_detect_call (s.detect_buffer ++ chunk)]).1 = none) from by
    rintro ⟨-, h⟩
    cases h)]
  rw [if_pos (show s.detect_buffer ++ chunk ≠ [] from by
    intro h
    exact hchunk (List.append_eq_nil.mp h).2)]
  rfl

/-- A loud chunk: the two bytes 16, 39 decode to the single sample 10000,
whose mean square is 100000000 (RMS 10000, far above the threshold 300). -/
theorem rms_loud_chunk : rms_energy_sq [16, 39] = .ok 100000000 := by
  norm_num [rms_energy_sq, unpack16, toInt16]
  decide

/-- The session state after one loud chunk arrived at time 0 while no
provisional language existed: 2 bytes (= 1/16000 s of audio) are buffered
for detection and the first-speech clock reads 0. -/
def stateDetect : SessionState :=
  { initState with
      current_utt_audio := [16, 39]
      detect_buffer := [16, 39]
      first_speech_time := some 0 }

/-- C6 counterexample.  The detection trigger is wall-clock elapsed time
since the first voiced chunk, not accumulated voiced audio: from
`stateDetect` (one 2-byte voiced chunk at time 0), a second 2-byte voiced
chunk arriving at time 0.9 s fires the detector on a 4-byte accumulated
sample — only 4/32000 s = 0.000125 s of audio, far less than the 0.8 s of
voiced audio the claim requires before the detector may be invoked. -/
theorem c6_detect_fires_on_elapsed_time_cex :
    process_chunk oracleJa stateDetect [16, 39] (9/10) = .ok
      ({ stateDetect with
          current_utt_audio := [16, 39, 16, 39]
          detect_buffer := []
          provisional_lang := some "japanese"
          push_stream_open := true },
       [Act.whisper_detect_call [16, 39, 16, 39],
        Act.event (Event.lang "japanese"),
        Act.azure_start "ja-JP",
        Act.push_write [16, 39, 16, 39]]) ∧
    (([16, 39, 16, 39] : List Nat).length : ℚ) / 32000 < MIN_DETECT_SEC := by
  constructor
  · exact process_chunk_detect_step oracleJa stateDetect [16, 39] (9/10) 0 100000000
      rfl rms_loud_chunk (by norm_num [SILENCE_RMS_THRESHOLD]) rfl
      (by norm_num [MIN_DETECT_SEC])
  · norm_num [MIN_DETECT_SEC]

/-- C6 amended.  While no provisional language exists, once the code's
actual trigger fires — at least 0.8 s of wall-clock time elapsed since the
first above-threshold chunk (which may hold far less than 0.8 s of voiced
audio, see the counterexample) — the language-only detector is invoked once
on the accumulated detection sample; a recognized tag is adopted as the
provisional language and otherwise it defaults to `"english"`; the session
then emits the `lang` event, starts the recognition engine with the mapped
locale (`langMapGet`, e.g. `"japanese"` to `ja-JP`), flushes the buffered
detection audio into the engine and clears the detection buffer. -/
theorem c6_detection_trigger_actions (o : Oracle) (s : SessionState) (chunk : List Nat)
    (now f ms : ℚ)
    (hprov : s.provisional_lang = none)
    (hrms : rms_energy_sq chunk = .ok ms)
    (hloud : ¬ ms < SILENCE_RMS_THRESHOLD ^ 2)
    (hf : s.first_speech_time = some f)
    (helapsed : MIN_DETECT_SEC ≤ now - f) :
    process_chunk o s chunk now = .ok
      ({ s with
          current_utt_audio := s.current_utt_audio ++ chunk
          detect_buffer := []
          provisional_lang := some (adoptedLang o (s.detect_buffer ++ chunk))
          push_stream_open := true
          first_speech_time := some f },
       [Act.whisper_detect_call (s.detect_buffer ++ chunk),
        Act.event (Event.lang (adoptedLang o (s.detect_buffer ++ chunk))),
        Act.azure_start (langMapGet (adoptedLang o (s.detect_buffer ++ chunk)) "en-US"),
        Act.push_write (s.detect_buffer ++ chunk)]) :=
  process_chunk_detect_step o s chunk now f ms hprov hrms hloud hf helapsed

theorem c6_detection_trigger_actions_witness :
    stateDetect.provisional_lang = none ∧
    rms_energy_sq [16, 39] = .ok 100000000 ∧
    ¬ (100000000 : ℚ) < SILENCE_RMS_THRESHOLD ^ 2 ∧
    stateDetect.first_speech_time = some 0 ∧
    MIN_DETECT_SEC ≤ (1 : ℚ) - 0 ∧
    process_chunk oracleJa stateDetect [16, 39] 1 = .ok
      ({ stateDetect with
          current_utt_audio := stateDetect.current_utt_audio ++ [16, 39]
          detect_buffer := []
          provisional_lang := some (adoptedLang oracleJa (stateDetect.detect_buffer ++ [16, 39]))
          push_stream_open := true
          first_speech_time := some 0 },
       [Act.whisper_detect_call (stateDetect.detect_buffer ++ [16, 39]),
        Act.event (Event.lang (adoptedLang oracleJa (stateDetect.detect_buffer ++ [16, 39]))),
        Act.azure_start (langMapGet (adoptedLang oracleJa (stateDetect.detect_buffer ++ [16, 39]))
          "en-US"),
        Act.push_write (stateDetect.detect_buffer ++ [16, 39])]) :=
  ⟨rfl, rms_loud_chunk, by norm_num [SILENCE_RMS_THRESHOLD], rfl,
   by norm_num [MIN_DETECT_SEC],
   c6_detection_trigger_actions oracleJa stateDetect [16, 39] 1 0 100000000
     rfl rms_loud_chunk (by norm_num [SILENCE_RMS_THRESHOLD]) rfl
     (by norm_num [MIN_DETECT_SEC])⟩

/-- C8.  From the pre-detection phase (no provisional language), a sequence
of chunks that are all below the RMS threshold produces no actions at all:
the detection buffer does not grow, the first-speech time is untouched (the
quiet chunks do not count toward detection timing), no language-detection
call is issued and no provisional language is adopted. -/
theorem c8_silent_chunks_no_detection (o : Oracle) (chunks : List (List Nat × ℚ)) :
    ∀ s : SessionState, s.provisional_lang = none →
      (∀ cp ∈ chunks, below_threshold cp.1 = true) →
      ∃ s', process_chunks o s chunks = .ok (s', []) ∧
        s'.detect_buffer = s.detect_buffer ∧
        s'.first_speech_time = s.first_speech_time ∧
        s'.provisional_lang = none := by
  induction chunks with
  | nil =>
    intro s hprov _
    exact ⟨s, rfl, rfl, rfl, hprov⟩
  | cons cp rest ih =>
    intro s hprov hlow
    obtain ⟨ch, now⟩ := cp
    have hb := hlow (ch, now) (List.mem_cons_self _ _)
    unfold below_threshold at hb
    cases hrms : rms_energy_sq ch with
    | error e =>
      rw [hrms] at hb
      exact absurd hb (by simp)
    | ok ms =>
      rw [hrms] at hb
      simp only [decide_eq_true_eq] at hb
      obtain ⟨s', h1, h2, h3, h4⟩ :=
        ih { s with current_utt_audio := s.current_utt_audio ++ ch
                    provisional_lang := none }
          rfl (fun cp2 hc => hlow cp2 (List.mem_cons_of_mem _ hc))
      refine ⟨s', ?_, ?_, ?_, h4⟩
      · unfold process_chunks process_chunk
        simp only [hprov, hrms]
        rw [if_pos hb]
        simp only [h1, List.nil_append]
      · exact h2
      · exact h3

theorem c8_silent_chunks_no_detection_witness :
    (∀ cp ∈ ([([0, 0], 0), ([], 1)] : List (List Nat × ℚ)), below_threshold cp.1 = true) ∧
    ∃ s', process_chunks oracleJa initState [([0, 0], 0), ([], 1)] = .ok (s', []) ∧
      s'.detect_buffer = initState.detect_buffer ∧
      s'.first_speech_time = initState.first_speech_time ∧
      s'.provisional_lang = none := by
  have hlow : ∀ cp ∈ ([([0, 0], 0), ([], 1)] : List (List Nat × ℚ)),
      below_threshold cp.1 = true := by
    intro cp hc
    fin_cases hc
    · norm_num [below_threshold, rms_energy_sq, unpack16, toInt16, SILENCE_RMS_THRESHOLD]
    · norm_num [below_threshold, rms_energy_sq, SILENCE_RMS_THRESHOLD]
  exact ⟨hlow, c8_silent_chunks_no_detection oracleJa [([0, 0], 0), ([], 1)] initState rfl hlow⟩

/-- C9 counterexample.  In the adaptive core (main.py `on_partial`,
lines 284-295) there is no debounce at all: three non-empty partial
hypotheses arriving 0.1 s apart each get a translation request, not just
the last one. -/
theorem c9_core_translates_every_hypothesis_cex :
    requestsOf (run_partials_main [(0, "a"), (1/10, "b"), (2/10, "c")]) = ["a", "b", "c"] ∧
    requestsOf (run_partials_main [(0, "a"), (1/10, "b"), (2/10, "c")]) ≠ ["c"] := by
  constructor
  · rfl
  · decide

/-- Last hypothesis text of a timed partial sequence (with a default for
the empty tail). -/
def lastTextFrom : String → List (ℚ × String) → String
  | d, [] => d
  | _, (_, x) :: rest => lastTextFrom x rest

/-- A well-spaced partial stream for the debounce argument: each hypothesis
is non-empty, differs from its predecessor and arrives strictly less than
0.3 s after it. -/
def chainOK : String → ℚ → List (ℚ × String) → Bool
  | _, _, [] => true
  | pt, ptime, (tm, x) :: rest =>
    decide (x ≠ "") && decide (x ≠ pt) && decide (tm < ptime + DEBOUNCE_SEC) &&
      chainOK x tm rest

theorem run_partials_fixed_pending (l : List (ℚ × String)) :
    ∀ (pt : String) (ptime : ℚ), chainOK pt ptime l = true →
      requestsOf (run_partials_fixed ⟨pt, some (pt, ptime + DEBOUNCE_SEC)⟩ l).2
        = [lastTextFrom pt l] := by
  induction l with
  | nil =>
    intro pt ptime _
    rfl
  | cons e rest ih =>
    intro pt ptime hchain
    obtain ⟨tm, x⟩ := e
    unfold chainOK at hchain
    simp only [Bool.and_eq_true, decide_eq_true_eq] at hchain
    obtain ⟨⟨⟨hx, hxp⟩, ht⟩, hrest⟩ := hchain
    unfold run_partials_fixed fire_due on_recognizing_fixed
    simp only [if_neg (not_le.mpr ht), if_neg hx, if_neg hxp]
    simpa [requestsOf, List.filterMap_append, lastTextFrom] using ih x tm hrest

theorem run_partials_main_requests (l : List (ℚ × String)) :
    requestsOf (run_partials_main l)
      = (l.map Prod.snd).filter (fun x => decide (x ≠ "")) := by
  induction l with
  | nil => rfl
  | cons e rest ih =>
    obtain ⟨tm, x⟩ := e
    unfold run_partials_main on_partial_main_step
    by_cases hx : x = ""
    · subst hx
      simpa [requestsOf, List.filterMap_append] using ih
    · rw [if_neg hx]
      simp only [requestsOf, List.filterMap_append, List.map_cons, List.filter_cons] at ih ⊢
      simp [hx, ih]

/-- C9 amended.  The translation debounce exists only in fixed mode: there,
for a stream of non-empty pairwise-consecutive-distinct hypotheses each
arriving within 0.3 s of its predecessor, exactly one translation is ever
requested — the last hypothesis's (the pending task of every earlier one is
cancelled and replaced).  In the adaptive core there is no debounce: every
non-empty partial hypothesis is immediately submitted for translation. -/
theorem c9_debounce_fixed_mode_only :
    (∀ (tm : ℚ) (x : String) (rest : List (ℚ × String)),
        x ≠ "" → chainOK x tm rest = true →
        requestsOf (run_partials_fixed ⟨"", none⟩ ((tm, x) :: rest)).2
          = [lastTextFrom x rest]) ∧
    (∀ l : List (ℚ × String),
        requestsOf (run_partials_main l)
          = (l.map Prod.snd).filter (fun x => decide (x ≠ ""))) := by
  constructor
  · intro tm x rest hx hchain
    unfold run_partials_fixed fire_due on_recognizing_fixed
    simp only [if_neg hx]
    simpa [requestsOf, List.filterMap_append] using run_partials_fixed_pending rest x tm hchain
  · exact run_partials_main_requests

theorem c9_debounce_fixed_mode_only_witness :
    requestsOf (run_partials_fixed ⟨"", none⟩ [(0, "a"), (1/10, "b"), (2/10, "c")]).2
      = [lastTextFrom "a" [(1/10, "b"), (2/10, "c")]] :=
  c9_debounce_fixed_mode_only.1 0 "a" [(1/10, "b"), (2/10, "c")] (by decide)
    (by norm_num [chainOK, DEBOUNCE_SEC]
        decide)
